import Mathlib

/-!
Verification development for the SteppingStone PPO training loop
(`playground/train.py`).  The definitions below are a shallow embedding of
the training control loop `main`: pure data (the sacred configuration block,
the episode-reward deque, the curriculum/specialist/best-snapshot counters)
is modelled directly, numpy aggregates over a possibly-empty deque are
modelled with `Option` (numpy returns NaN on an empty input, and every
comparison against NaN is false, which `optGT`/`gtNegInf` reproduce), and
the straight-line body of one update iteration is modelled as a trace of
events in source order.
-/

namespace SteppingStone

/-- Configuration block of `train.py` (`@ex.config`, lines 30-78), restricted
to the entries the control loop reads.  Defaults are the values in the source;
sacred allows each entry to be overridden independently, so `num_steps` is a
field of its own (its default is `episode_steps // num_processes`, i.e.
`40000 / 100`). -/
structure Config where
  env_name : String := "CassieStepper-v1"
  num_frames : Nat := 60000000
  use_curriculum : Bool := false
  use_specialist : Bool := false
  use_threshold_sampling : Bool := false
  use_adaptive_sampling : Bool := false
  plot_prob : Bool := false
  lr_decay_type : String := "exponential"
  num_processes : Nat := 100
  num_steps : Nat := 400
  lr : Rat := 3 / 10000
  deriving Repr, DecidableEq

/-- Insert a value into an ascending-sorted list, keeping it sorted. -/
def insertSorted (x : Rat) : List Rat → List Rat
  | [] => [x]
  | y :: ys => if x ≤ y then x :: y :: ys else y :: insertSorted x ys

/-- Ascending insertion sort, the sort underlying `np.median`. -/
def sortAsc (l : List Rat) : List Rat := l.foldr insertSorted []

/-- Shallow embedding of `np.median`: the middle element of the sorted list
for odd length, the average of the two middle elements for even length, and
`none` for the empty list (numpy returns NaN there, after emitting a
RuntimeWarning). -/
def npMedian (l : List Rat) : Option Rat :=
  let s := sortAsc l
  let n := s.length
  if n = 0 then none
  else if n % 2 = 1 then some (s.getD (n / 2) 0)
  else some ((s.getD (n / 2 - 1) 0 + s.getD (n / 2) 0) / 2)

/-- Shallow embedding of `np.mean`: the arithmetic mean, `none` for the empty
list (numpy returns NaN there). -/
def npMean (l : List Rat) : Option Rat :=
  if l = [] then none else some (l.sum / l.length)

/-- Comparison `a > t` where `a` is a possibly-NaN numpy aggregate (modelled
`none`): every comparison against NaN is false. -/
def optGT (a : Option Rat) (t : Rat) : Bool :=
  match a with
  | none => false
  | some x => decide (t < x)

/-- Comparison `v > m` where `m` is the running maximum initialised to
`float("-inf")` (modelled `none`): every finite value exceeds negative
infinity. -/
def gtNegInf (v : Rat) (m : Option Rat) : Bool :=
  match m with
  | none => true
  | some x => decide (x < v)

/-- Whether the guard at `train.py:291`,
`if args.use_curriculum and np.median(episode_rewards) > 900:`, evaluates
`np.median(episode_rewards)`.  Python's `and` evaluates its right operand
exactly when `args.use_curriculum` is truthy, regardless of the contents of
the deque — there is no emptiness guard on this line. -/
def curriculumComputesMedian (cfg : Config) (_episode_rewards : List Rat) : Bool :=
  cfg.use_curriculum

/-- Whether the guard at `train.py:321`,
`if args.use_specialist and np.mean(episode_rewards) > 1000:`, evaluates
`np.mean(episode_rewards)`: exactly when `args.use_specialist` is truthy,
regardless of the contents of the deque. -/
def specialistComputesMean (cfg : Config) (_episode_rewards : List Rat) : Bool :=
  cfg.use_specialist

/-- Whether the guard at `train.py:332`,
`if len(episode_rewards) > 1 and np.mean(episode_rewards) > max_ep_reward:`,
evaluates `np.mean(episode_rewards)`: only when more than one episode reward
has been recorded. -/
def bestComputesMean (episode_rewards : List Rat) : Bool :=
  decide (1 < episode_rewards.length)

/-- Whether the metrics log at `train.py:337-351` runs at all: it is guarded
by `if len(episode_rewards) > 1:`. -/
def logEmitted (episode_rewards : List Rat) : Bool :=
  decide (1 < episode_rewards.length)

/-- Curriculum escalation, `train.py:291-294`.  Returns the new curriculum
level together with the level pushed to `envs.update_curriculum` (`none` when
no notification is sent). -/
def curriculumUpdate (cfg : Config) (episode_rewards : List Rat) (curriculum : Nat) :
    Nat × Option Nat :=
  if cfg.use_curriculum && optGT (npMedian episode_rewards) 900 then
    (curriculum + 1, some (curriculum + 1))
  else
    (curriculum, none)

/-- Specialist fork, `train.py:321-328`.  Returns the new specialist index,
the name of the checkpoint written (the pre-increment index is formatted into
the name, `none` when nothing is saved), and the index pushed to
`envs.update_specialist` (`none` when no notification is sent). -/
def specialistUpdate (cfg : Config) (episode_rewards : List Rat) (specialist : Nat) :
    Nat × Option String × Option Nat :=
  if cfg.use_specialist && optGT (npMean episode_rewards) 1000 then
    (specialist + 1,
     some (cfg.env_name ++ "_specialist_" ++ toString specialist ++ ".pt"),
     some (specialist + 1))
  else
    (specialist, none, none)

/-- Best-snapshot check, `train.py:332-335`.  Returns the new running maximum
and the name of the checkpoint written (`none` when nothing is saved).  The
guard is `len(episode_rewards) > 1 and np.mean(episode_rewards) >
max_ep_reward`. -/
def bestSnapshot (cfg : Config) (episode_rewards : List Rat) (max_ep_reward : Option Rat) :
    Option Rat × Option String :=
  if bestComputesMean episode_rewards &&
      (match npMean episode_rewards with
       | none => false
       | some m => gtNegInf m max_ep_reward) then
    (npMean episode_rewards, some (cfg.env_name ++ "_best.pt"))
  else
    (max_ep_reward, none)

/-- Modelled from the spec: `linear_decay` lives in `common/misc_utils.py`,
which is not among the sources; the spec describes it as linear decay from the
initial rate toward a floor value over the total number of updates. -/
def linear_decay (iter total : Nat) (initial final : Rat) : Rat :=
  if total = 0 then final
  else initial - (initial - final) * iter / total

/-- Modelled from the spec: `exponential_decay` lives in
`common/misc_utils.py`, which is not among the sources; the spec describes it
as exponential decay (by a per-update rate) toward a floor value. -/
def exponential_decay (iter : Nat) (rate initial final : Rat) : Rat :=
  max (initial * rate ^ iter) final

/-- Number of update iterations, `train.py:170`:
`num_updates = int(args.num_frames) // args.num_steps // args.num_processes`. -/
def numUpdates (cfg : Config) : Nat :=
  cfg.num_frames / cfg.num_steps / cfg.num_processes

/-- Learning rate scheduled for update `j`, `train.py:182-187`: linear decay
to a floor of 0, exponential decay with rate 0.99 to a floor of 3e-5, or the
constant configured rate for any other decay type. -/
def scheduledLR (cfg : Config) (j : Nat) : Rat :=
  if cfg.lr_decay_type = "linear" then linear_decay j (numUpdates cfg) cfg.lr 0
  else if cfg.lr_decay_type = "exponential" then
    exponential_decay j (99 / 100) cfg.lr (3 / 100000)
  else cfg.lr

/-- Events of one update iteration of the control loop, in the order the
source emits them.  `collectStep s` stands for one pass of the collection
loop body (`train.py:193-267`: `actor_critic.act`, `envs.step`, the optional
value probes, `rollouts.insert`) and `evalStep t` for one pass of the test
loop body (`train.py:273-288`, deterministic `actor_critic.act` on the test
workers). -/
inductive Event where
  | setLR (lr : Rat)
  | snapshotParams
  | collectStep (step : Nat)
  | evalStep (step : Nat)
  | curriculumCheck
  | getNextValue
  | computeReturns
  | agentUpdate
  | afterUpdate
  | specialistForkCheck
  | saveModel
  | bestSnapshotCheck
  | logEpoch
  deriving Repr, DecidableEq

/-- Tail of one iteration after the two loops, in source order
(`train.py:291-351`): curriculum escalation (291-294), bootstrap value (296),
`compute_returns` (301), `agent.update` (303), `after_update` (305),
specialist fork (321-328), `torch.save` of the periodic/latest checkpoint
(330), best-snapshot check (332-335), metrics log (337-351). -/
def iterationTail : List Event :=
  [Event.curriculumCheck, Event.getNextValue, Event.computeReturns,
   Event.agentUpdate, Event.afterUpdate, Event.specialistForkCheck,
   Event.saveModel, Event.bestSnapshotCheck, Event.logEpoch]

/-- Trace of one update iteration `j` of the control loop
(`train.py:180-351`), with `maxEpisodeSteps` the external constant
`dummy_env._max_episode_steps` bounding the test loop. -/
def iterationTrace (cfg : Config) (j : Nat) (maxEpisodeSteps : Nat) : List Event :=
  [Event.setLR (scheduledLR cfg j), Event.snapshotParams]
    ++ (List.range cfg.num_steps).map Event.collectStep
    ++ (List.range maxEpisodeSteps).map Event.evalStep
    ++ iterationTail

/-- Trace of the whole run: `for j in range(num_updates)` (`train.py:180`). -/
def runTrace (cfg : Config) (maxEpisodeSteps : Nat) : List Event :=
  ((List.range (numUpdates cfg)).map (fun j => iterationTrace cfg j maxEpisodeSteps)).flatten

/-- `occursBefore a b l` holds when some occurrence of `a` in `l` is followed,
strictly later in `l`, by an occurrence of `b`. -/
def occursBefore [DecidableEq α] (a b : α) : List α → Bool
  | [] => false
  | x :: xs => if x = a then decide (b ∈ xs) || occursBefore a b xs else occursBefore a b xs

theorem occursBefore_append_of_not_mem [DecidableEq α] {a b : α}
    (l₁ : List α) {l₂ : List α} (h : a ∉ l₁) :
    occursBefore a b (l₁ ++ l₂) = occursBefore a b l₂ := by
  induction l₁ with
  | nil => rfl
  | cons x xs ih =>
      have hxa : x ≠ a := fun hx => h (hx ▸ List.mem_cons_self x xs)
      have hnx : a ∉ xs := fun hx => h (List.mem_cons_of_mem x hx)
      simp [occursBefore, hxa, ih hnx]

theorem occursBefore_of_mem_mem [DecidableEq α] {a b : α}
    {l₁ l₂ : List α} (h₁ : a ∈ l₁) (h₂ : b ∈ l₂) :
    occursBefore a b (l₁ ++ l₂) = true := by
  induction l₁ with
  | nil => cases h₁
  | cons x xs ih =>
      rcases List.mem_cons.mp h₁ with hx | hx
      · have : b ∈ xs ++ l₂ := List.mem_append.mpr (Or.inr h₂)
        simp [occursBefore, hx.symm, this]
      · by_cases hxa : x = a
        · have : b ∈ xs ++ l₂ := List.mem_append.mpr (Or.inr h₂)
          simp [occursBefore, hxa, this]
        · simp [occursBefore, hxa, ih hx]

/-- Per-worker `info` mapping returned by `envs.step`, restricted to the two
optional keys the loop reads: `bad_transition` (presence modelled as a flag)
and `episode` (its `r` entry, present only on the step an episode ends). -/
structure Info where
  bad_transition : Bool
  episode_r : Option Rat
  deriving Repr, DecidableEq

/-- Per-worker `bad_masks` computed at `train.py:244-249`: initialised to
ones, set to 0.0 for every worker whose info mapping contains the key
`bad_transition`. -/
def computeBadMasks (infos : List Info) : List Rat :=
  infos.map (fun info => if info.bad_transition then 0 else 1)

/-- Per-worker continuation `masks` computed at `train.py:254`:
`[0.0] if done_ else [1.0]` for each worker's done flag. -/
def computeMasks (done : List Bool) : List Rat :=
  done.map (fun d => if d then 0 else 1)

/-- The `(masks, bad_masks)` pair passed to `rollouts.insert`
(`train.py:258-267`). -/
def insertedMasks (infos : List Info) (done : List Bool) : List Rat × List Rat :=
  (computeMasks done, computeBadMasks infos)

/-- Append to a `collections.deque` with a maximum length: the oldest entries
are dropped from the left once the deque is full
(`episode_rewards = deque(maxlen=args.num_processes)`, `train.py:168`). -/
def dequeAppend (maxlen : Nat) (l : List Rat) (x : Rat) : List Rat :=
  let l2 := l ++ [x]
  l2.drop (l2.length - maxlen)

/-- Episode-reward recording at `train.py:250-252`: for each worker whose
info carries an `episode` key, its terminal reward is appended to the
deque. -/
def recordEpisodeRewards (maxlen : Nat) (infos : List Info) (dq : List Rat) : List Rat :=
  infos.foldl
    (fun acc info =>
      match info.episode_r with
      | some r => dequeAppend maxlen acc r
      | none => acc)
    dq

/-- Events whose execution reads the live policy/value parameters without the
optimizer being involved: the collection loop (`actor_critic.act` and the
`get_value` probes under `torch.no_grad()`), the evaluation loop
(deterministic `actor_critic.act`), and the bootstrap `get_value` call. -/
def readsPolicy : Event → Bool
  | Event.collectStep _ => true
  | Event.evalStep _ => true
  | Event.getNextValue => true
  | _ => false

/-- Modelled from the spec: the policy collaborator's `act`/`get_value`
(`common/controller.py`, not among the sources) read the parameters and
return values without mutating anything, and the PPO optimizer's `update`
(`algorithms/ppo.py`, not among the sources) is the one operation producing
gradient updates to the shared parameters.  `paramTrace` threads the live
parameter value through the events of one iteration accordingly: each event
is paired with the parameter value in effect when it begins, and only
`agentUpdate` (the `agent.update(rollouts)` call, `train.py:303`) replaces
the value. -/
def paramTrace {Θ : Type} (upd : Θ → Θ) : Θ → List Event → List (Event × Θ)
  | _, [] => []
  | θ, e :: es =>
      (e, θ) :: paramTrace upd (if e = Event.agentUpdate then upd θ else θ) es

/-- Parameter value after executing a list of events, threading as in
`paramTrace`. -/
def paramFinal {Θ : Type} (upd : Θ → Θ) : Θ → List Event → Θ
  | θ, [] => θ
  | θ, e :: es => paramFinal upd (if e = Event.agentUpdate then upd θ else θ) es

/-- Adaptation counters owned by the control loop: the curriculum level
(`train.py:104-105`), the specialist index (`train.py:108-109`), and the
best-snapshot running maximum (`train.py:174`). -/
structure AdaptState where
  curriculum : Nat
  specialist : Nat
  max_ep_reward : Option Rat
  deriving Repr, DecidableEq

/-- Initial adaptation state: `curriculum = 0`, `specialist = 0`,
`max_ep_reward = float("-inf")`. -/
def adaptInit : AdaptState :=
  { curriculum := 0, specialist := 0, max_ep_reward := none }

/-- The CHECKPOINT/ADAPT mutations of one iteration applied to the counters,
given the contents of the episode-reward deque at that iteration. -/
def adaptStep (cfg : Config) (episode_rewards : List Rat) (s : AdaptState) : AdaptState :=
  { curriculum := (curriculumUpdate cfg episode_rewards s.curriculum).1,
    specialist := (specialistUpdate cfg episode_rewards s.specialist).1,
    max_ep_reward := (bestSnapshot cfg episode_rewards s.max_ep_reward).1 }

/-- The counters after a sequence of iterations, one deque snapshot per
iteration. -/
def adaptRun (cfg : Config) (seq : List (List Rat)) (s : AdaptState) : AdaptState :=
  seq.foldl (fun acc r => adaptStep cfg r acc) s

/-- Names bound by the plotting setup (`train.py:114-119`): when `plot_prob`
is enabled, `fig`, `ax1` and `ax2` are created — and nothing else; in
particular no name `ax` is ever bound. -/
def plotNames (plot_prob : Bool) : List String :=
  if plot_prob then ["fig", "ax1", "ax2"] else []

/-- Reference a Python name: a NameError is raised when the name is not
bound. -/
def useName (env : List String) (n : String) : Except String Unit :=
  if n ∈ env then Except.ok ()
  else Except.error ("NameError: name " ++ n ++ " is not defined")

/-- Name references of one pass of the collection loop body
(`train.py:193-267`), restricted to the plotting names: the `plot_prob`
branch (206-217) draws on `ax1`, `ax2` and `fig` when `step == 0`, and the
threshold-sampling branch (228-242) draws on `ax` and `fig` when both
`plot_prob` and `step == 0` hold. -/
def collectStepRun (cfg : Config) (step : Nat) : Except String Unit := do
  let env := plotNames cfg.plot_prob
  if cfg.plot_prob && step == 0 then
    useName env "ax1"
    useName env "ax2"
    useName env "fig"
  if cfg.use_threshold_sampling && (cfg.plot_prob && step == 0) then
    useName env "ax"
    useName env "fig"
  pure ()

/-- Run the collection loop bodies for steps `s`, `s+1`, ..., `s+n-1`,
propagating the first raised error. -/
def runStepsFrom (cfg : Config) (s : Nat) : Nat → Except String Unit
  | 0 => Except.ok ()
  | n + 1 => do
      collectStepRun cfg s
      runStepsFrom cfg (s + 1) n

/-- The COLLECT phase of the first update iteration
(`for step in range(args.num_steps)`, `train.py:193`). -/
def runCollect (cfg : Config) : Except String Unit :=
  runStepsFrom cfg 0 cfg.num_steps

/-- The mean of the deque exists and exceeds the running maximum
(`np.mean(episode_rewards) > max_ep_reward`). -/
def meanExceedsMax (rewards : List Rat) (m : Option Rat) : Prop :=
  ∃ v, npMean rewards = some v ∧ gtNegInf v m = true

/-- C1: counterexample.  The claim says every consumer of episode-reward
statistics short-circuits on an empty deque; but the guards at
`train.py:291` and `train.py:321` test only the feature flag, so with
`use_curriculum` (resp. `use_specialist`) enabled the median (resp. mean) is
evaluated over the empty deque, whose aggregate is NaN (modelled `none`). -/
theorem c1_empty_deque_counterexample :
    curriculumComputesMedian { use_curriculum := true } [] = true ∧
    specialistComputesMean { use_specialist := true } [] = true ∧
    npMedian [] = none ∧ npMean [] = none := by
  refine ⟨rfl, rfl, rfl, rfl⟩

/-- C1 (amended): on an iteration with an empty episode-reward deque, the
best-snapshot check and the metrics log short-circuit without computing an
aggregate (both are guarded by `len(episode_rewards) > 1`); the
curriculum-escalation and specialist-fork checks are guarded only by their
feature flags and, when enabled, do evaluate the median/mean over the empty
deque — the resulting NaN aggregate fails the threshold comparison, so
neither counter advances and no notification or fork occurs. -/
theorem c1_empty_deque_amended (cfg : Config) :
    bestComputesMean [] = false ∧
    logEmitted [] = false ∧
    (∀ m : Option Rat, bestSnapshot cfg [] m = (m, none)) ∧
    curriculumComputesMedian cfg [] = cfg.use_curriculum ∧
    specialistComputesMean cfg [] = cfg.use_specialist ∧
    npMedian [] = none ∧
    npMean [] = none ∧
    (∀ c : Nat, curriculumUpdate cfg [] c = (c, none)) ∧
    (∀ s : Nat, specialistUpdate cfg [] s = (s, none, none)) := by
  refine ⟨rfl, rfl, fun m => ?_, rfl, rfl, rfl, rfl, fun c => ?_, fun s => ?_⟩
  · simp [bestSnapshot, bestComputesMean]
  · simp [curriculumUpdate, npMedian, sortAsc, optGT]
  · simp [specialistUpdate, npMean, optGT]

/-- C3: with curriculum enabled, an iteration whose recorded episode-reward
median strictly exceeds 900 increments the curriculum level by exactly one
and pushes the new level to `envs.update_curriculum`; an iteration whose
median does not exceed 900 leaves the level unchanged and sends no
notification (`train.py:291-294`). -/
theorem c3_curriculum_escalation (cfg : Config) (rewards : List Rat) (c : Nat)
    (hc : cfg.use_curriculum = true) :
    (∀ m : Rat, npMedian rewards = some m → 900 < m →
        curriculumUpdate cfg rewards c = (c + 1, some (c + 1))) ∧
    ((∀ m : Rat, npMedian rewards = some m → m ≤ 900) →
        curriculumUpdate cfg rewards c = (c, none)) := by
  constructor
  · intro m hm hgt
    simp [curriculumUpdate, hc, optGT, hm, hgt]
  · intro hle
    have hfalse : optGT (npMedian rewards) 900 = false := by
      cases hmed : npMedian rewards with
      | none => simp [optGT]
      | some m =>
          have := hle m hmed
          simp [optGT, not_lt.mpr this]
    simp [curriculumUpdate, hfalse]

/-- C3 witness: a concrete escalating iteration (median of [901, 950, 1000]
is 950 > 900) and the non-escalating implication at the same input. -/
theorem c3_curriculum_escalation_witness :
    ({ use_curriculum := true } : Config).use_curriculum = true ∧
    curriculumUpdate { use_curriculum := true } [901, 950, 1000] 0 = (1, some 1) ∧
    npMedian [901, 950, 1000] = some 950 := by
  refine ⟨rfl, ?_, by decide⟩
  exact (c3_curriculum_escalation { use_curriculum := true } [901, 950, 1000] 0 rfl).1
    950 (by decide) (by norm_num)

/-- C4: counterexample.  The claim says a best snapshot is persisted whenever
the mean training-episode reward improves; but with exactly one recorded
reward (here 5, mean 5, running maximum 0) the guard
`len(episode_rewards) > 1` at `train.py:332` fails, so nothing is saved and
the running maximum stays 0 even though the mean exceeds it. -/
theorem c4_best_snapshot_counterexample :
    npMean [(5 : Rat)] = some 5 ∧
    gtNegInf 5 (some 0) = true ∧
    bestSnapshot {} [(5 : Rat)] (some 0) = (some 0, none) := by
  refine ⟨by norm_num [npMean], by decide, by decide⟩

/-- C4 (amended): a best snapshot is persisted exactly when more than one
episode reward is recorded and their mean exceeds the running maximum; in
that case the model is saved under `<env_name>_best.pt` and the running
maximum becomes that mean, and in every other iteration no best save occurs
and the running maximum is unchanged (`train.py:332-335`). -/
theorem c4_best_snapshot_amended (cfg : Config) (rewards : List Rat) (m : Option Rat) :
    ((bestSnapshot cfg rewards m).2.isSome = true ↔
        1 < rewards.length ∧ meanExceedsMax rewards m) ∧
    (1 < rewards.length → meanExceedsMax rewards m →
        bestSnapshot cfg rewards m = (npMean rewards, some (cfg.env_name ++ "_best.pt"))) ∧
    (¬(1 < rewards.length ∧ meanExceedsMax rewards m) →
        bestSnapshot cfg rewards m = (m, none)) := by
  by_cases hlen : 1 < rewards.length
  · have hmean : npMean rewards = some (rewards.sum / rewards.length) := by
      have : rewards ≠ [] := by
        intro h
        rw [h] at hlen
        simp at hlen
      simp [npMean, this]
    cases hg : gtNegInf (rewards.sum / rewards.length) m with
    | false =>
        have hcond : bestSnapshot cfg rewards m = (m, none) := by
          simp [bestSnapshot, bestComputesMean, hlen, hmean, hg]
        have hnex : ¬ meanExceedsMax rewards m := by
          rintro ⟨v, hv, hgt⟩
          rw [hmean] at hv
          cases hv
          rw [hg] at hgt
          cases hgt
        refine ⟨?_, fun _ hex => absurd hex hnex, fun _ => hcond⟩
        rw [hcond]
        simp [hnex]
    | true =>
        have hcond : bestSnapshot cfg rewards m =
            (npMean rewards, some (cfg.env_name ++ "_best.pt")) := by
          simp [bestSnapshot, bestComputesMean, hlen, hmean, hg]
        have hex : meanExceedsMax rewards m := ⟨rewards.sum / rewards.length, hmean, hg⟩
        refine ⟨?_, fun _ _ => hcond, fun hn => absurd ⟨hlen, hex⟩ hn⟩
        rw [hcond]
        simp [hlen, hex]
  · have hcond : bestSnapshot cfg rewards m = (m, none) := by
      simp [bestSnapshot, bestComputesMean, hlen]
    refine ⟨?_, fun h => absurd h hlen, fun _ => hcond⟩
    rw [hcond]
    simp [hlen]

/-- C7: for every collected step and worker `p`, the masks passed to
`rollouts.insert` satisfy: the bad mask is 0 iff the worker's info mapping
contains the key `bad_transition` (and is 1 otherwise), and the continuation
mask is 0 iff the worker's done flag is set (and is 1 otherwise)
(`train.py:244-267`). -/
theorem c7_inserted_masks (infos : List Info) (done : List Bool) (p : Nat)
    (info : Info) (d : Bool)
    (hi : infos[p]? = some info) (hd : done[p]? = some d) :
    ((insertedMasks infos done).2[p]? = some 0 ↔ info.bad_transition = true) ∧
    ((insertedMasks infos done).2[p]? = some 1 ↔ info.bad_transition = false) ∧
    ((insertedMasks infos done).1[p]? = some 0 ↔ d = true) ∧
    ((insertedMasks infos done).1[p]? = some 1 ↔ d = false) := by
  simp only [insertedMasks, computeBadMasks, computeMasks, List.getElem?_map, hi, hd,
    Option.map_some]
  cases hb : info.bad_transition <;> cases d <;> norm_num [hb]

/-- C7 witness: a two-worker step where worker 0 timed out
(`bad_transition` present) and finished its episode, instantiating the mask
characterization at worker 0. -/
theorem c7_inserted_masks_witness :
    ([⟨true, some 3⟩, ⟨false, none⟩] : List Info)[0]? = some ⟨true, some 3⟩ ∧
    ([true, false] : List Bool)[0]? = some true ∧
    ((insertedMasks [⟨true, some 3⟩, ⟨false, none⟩] [true, false]).2[0]? = some 0 ↔
        (⟨true, some 3⟩ : Info).bad_transition = true) := by
  refine ⟨rfl, rfl,
    (c7_inserted_masks [⟨true, some 3⟩, ⟨false, none⟩] [true, false] 0
      ⟨true, some 3⟩ true rfl rfl).1⟩

theorem iterationTrace_split (cfg : Config) (j mes : Nat) :
    iterationTrace cfg j mes =
      ([Event.setLR (scheduledLR cfg j), Event.snapshotParams]
        ++ (List.range cfg.num_steps).map Event.collectStep
        ++ (List.range mes).map Event.evalStep
        ++ [Event.curriculumCheck, Event.getNextValue, Event.computeReturns])
      ++ (Event.agentUpdate ::
          [Event.afterUpdate, Event.specialistForkCheck, Event.saveModel,
           Event.bestSnapshotCheck, Event.logEpoch]) := by
  simp [iterationTrace, iterationTail]

theorem agentUpdate_not_mem_head (cfg : Config) (j mes : Nat) :
    Event.agentUpdate ∉
      ([Event.setLR (scheduledLR cfg j), Event.snapshotParams]
        ++ (List.range cfg.num_steps).map Event.collectStep
        ++ (List.range mes).map Event.evalStep
        ++ [Event.curriculumCheck, Event.getNextValue, Event.computeReturns]) := by
  simp [List.mem_append, List.mem_map]

/-- C2: counterexample.  The claim places the curriculum-escalation decision
in CHECKPOINT/ADAPT, after the OPTIMIZE phase; but in the source the
curriculum check (`train.py:291-294`) precedes `compute_returns` (301) and
`agent.update` (303).  At a concrete configuration the iteration trace never
has `agentUpdate` before `curriculumCheck`, while it does have
`curriculumCheck` before `agentUpdate`. -/
theorem c2_phase_order_counterexample :
    occursBefore Event.agentUpdate Event.curriculumCheck
        (iterationTrace { num_steps := 2 } 0 2) = false ∧
    occursBefore Event.curriculumCheck Event.agentUpdate
        (iterationTrace { num_steps := 2 } 0 2) = true := by
  constructor <;> rfl

/-- C2 (amended): in every update iteration the phases execute in the order
COLLECT, then EVALUATE, then the curriculum-escalation decision, then
ADVANTAGE (`compute_returns`), then OPTIMIZE (`agent.update` followed by
`after_update`), then the remaining CHECKPOINT/ADAPT work (specialist fork,
checkpoint save, best-snapshot check, metrics log); in particular the
curriculum-escalation decision executes before — not after — the OPTIMIZE
phase of the same iteration. -/
theorem c2_phase_order_amended (cfg : Config) (j mes s t : Nat)
    (hs : s < cfg.num_steps) (ht : t < mes) :
    occursBefore (Event.collectStep s) (Event.evalStep t)
        (iterationTrace cfg j mes) = true ∧
    occursBefore (Event.evalStep t) Event.curriculumCheck
        (iterationTrace cfg j mes) = true ∧
    occursBefore Event.curriculumCheck Event.computeReturns
        (iterationTrace cfg j mes) = true ∧
    occursBefore Event.computeReturns Event.agentUpdate
        (iterationTrace cfg j mes) = true ∧
    occursBefore Event.agentUpdate Event.afterUpdate
        (iterationTrace cfg j mes) = true ∧
    occursBefore Event.afterUpdate Event.bestSnapshotCheck
        (iterationTrace cfg j mes) = true ∧
    occursBefore Event.curriculumCheck Event.agentUpdate
        (iterationTrace cfg j mes) = true := by
  have hsmem : Event.collectStep s ∈ (List.range cfg.num_steps).map Event.collectStep :=
    List.mem_map.mpr ⟨s, List.mem_range.mpr hs, rfl⟩
  have htmem : Event.evalStep t ∈ (List.range mes).map Event.evalStep :=
    List.mem_map.mpr ⟨t, List.mem_range.mpr ht, rfl⟩
  have hstrip : ∀ a b : Event,
      (∀ x, a ≠ Event.setLR x) → a ≠ Event.snapshotParams →
      (∀ x, a ≠ Event.collectStep x) → (∀ x, a ≠ Event.evalStep x) →
      occursBefore a b (iterationTrace cfg j mes) = occursBefore a b iterationTail := by
    intro a b h1 h2 h3 h4
    rw [iterationTrace]
    refine occursBefore_append_of_not_mem
      ([Event.setLR (scheduledLR cfg j), Event.snapshotParams]
        ++ (List.range cfg.num_steps).map Event.collectStep
        ++ (List.range mes).map Event.evalStep) ?_
    intro hmem
    rcases List.mem_append.mp hmem with hmem | hmem
    · rcases List.mem_append.mp hmem with hmem | hmem
      · rcases List.mem_cons.mp hmem with h | h
        · exact h1 _ h
        · rcases List.mem_cons.mp h with h | h
          · exact h2 h
          · exact absurd h (List.not_mem_nil a)
      · rcases List.mem_map.mp hmem with ⟨x, _, hx⟩
        exact h3 x hx.symm
    · rcases List.mem_map.mp hmem with ⟨x, _, hx⟩
      exact h4 x hx.symm
  refine ⟨?_, ?_, ?_, ?_, ?_, ?_, ?_⟩
  · rw [iterationTrace, List.append_assoc _ ((List.range mes).map Event.evalStep)]
    refine occursBefore_of_mem_mem (List.mem_append.mpr (Or.inr hsmem))
      (List.mem_append.mpr (Or.inl htmem))
  · rw [iterationTrace]
    exact occursBefore_of_mem_mem (List.mem_append.mpr (Or.inr htmem))
      (by simp [iterationTail])
  · rw [hstrip _ _ (by simp) (by simp) (by simp) (by simp)]
    rfl
  · rw [hstrip _ _ (by simp) (by simp) (by simp) (by simp)]
    rfl
  · rw [hstrip _ _ (by simp) (by simp) (by simp) (by simp)]
    rfl
  · rw [hstrip _ _ (by simp) (by simp) (by simp) (by simp)]
    rfl
  · rw [hstrip _ _ (by simp) (by simp) (by simp) (by simp)]
    rfl

/-- C2 witness: the amended ordering at a concrete configuration with one
collect step and one test step. -/
theorem c2_phase_order_amended_witness :
    0 < ({ num_steps := 1 } : Config).num_steps ∧ (0 : Nat) < 1 ∧
    occursBefore Event.curriculumCheck Event.agentUpdate
        (iterationTrace { num_steps := 1 } 0 1) = true :=
  ⟨by decide, by decide,
   (c2_phase_order_amended { num_steps := 1 } 0 1 0 0 (by decide) (by decide)).2.2.2.2.2.2⟩

/-- Recogniser for collection events. -/
def isCollectStep : Event → Bool
  | Event.collectStep _ => true
  | _ => false

/-- Recogniser for the optimizer call. -/
def isAgentUpdate : Event → Bool
  | Event.agentUpdate => true
  | _ => false

theorem countP_collect_iterationTrace (cfg : Config) (j mes : Nat) :
    (iterationTrace cfg j mes).countP isCollectStep = cfg.num_steps := by
  have hc : (isCollectStep ∘ Event.collectStep) = fun _ : Nat => true := rfl
  have he : (isCollectStep ∘ Event.evalStep) = fun _ : Nat => false := rfl
  simp [iterationTrace, iterationTail, List.countP_append, List.countP_map,
    List.countP_cons, List.countP_nil, isCollectStep, hc, he,
    congrFun List.countP_true, congrFun List.countP_false]

theorem countP_agentUpdate_iterationTrace (cfg : Config) (j mes : Nat) :
    (iterationTrace cfg j mes).countP isAgentUpdate = 1 := by
  have hc : (isAgentUpdate ∘ Event.collectStep) = fun _ : Nat => false := rfl
  have he : (isAgentUpdate ∘ Event.evalStep) = fun _ : Nat => false := rfl
  simp [iterationTrace, iterationTail, List.countP_append, List.countP_map,
    List.countP_cons, List.countP_nil, isAgentUpdate, hc, he,
    congrFun List.countP_false]

theorem sum_map_one {α : Type} (l : List α) : (l.map (fun _ => 1)).sum = l.length := by
  induction l with
  | nil => rfl
  | cons x xs ih =>
      simp only [List.map_cons, List.sum_cons, ih, List.length_cons]
      omega

/-- C5: the loop runs for a fixed total-frame budget.  `num_updates` equals
`floor(num_frames / (num_steps * num_processes))` (the source computes it as
`int(num_frames) // num_steps // num_processes`, `train.py:170`), the run
trace performs exactly that many optimizer updates, every iteration performs
exactly `num_steps` collection steps (each gathering one transition per
worker, i.e. `num_steps * num_processes` frames per iteration,
`train.py:307`), and the total number of collected frames never exceeds
`num_frames`. -/
theorem c5_frame_budget (cfg : Config) (mes : Nat) :
    numUpdates cfg = cfg.num_frames / (cfg.num_steps * cfg.num_processes) ∧
    (runTrace cfg mes).countP isAgentUpdate = numUpdates cfg ∧
    (∀ j, (iterationTrace cfg j mes).countP isCollectStep = cfg.num_steps) ∧
    numUpdates cfg * cfg.num_steps * cfg.num_processes ≤ cfg.num_frames := by
  refine ⟨Nat.div_div_eq_div_mul _ _ _, ?_, fun j => countP_collect_iterationTrace cfg j mes, ?_⟩
  · rw [runTrace, List.countP_flatten, List.map_map]
    have : (List.countP isAgentUpdate ∘ fun j => iterationTrace cfg j mes)
        = fun _ => 1 := by
      funext j
      exact countP_agentUpdate_iterationTrace cfg j mes
    rw [this, sum_map_one, List.length_range]
  · have h1 : cfg.num_frames / cfg.num_steps / cfg.num_processes * cfg.num_processes
        ≤ cfg.num_frames / cfg.num_steps := Nat.div_mul_le_self _ _
    calc numUpdates cfg * cfg.num_steps * cfg.num_processes
        = numUpdates cfg * cfg.num_processes * cfg.num_steps := by ring
      _ ≤ cfg.num_frames / cfg.num_steps * cfg.num_steps :=
          Nat.mul_le_mul_right _ h1
      _ ≤ cfg.num_frames := Nat.div_mul_le_self _ _

theorem occursBefore_head [DecidableEq α] {a b : α} {l : List α} (h : b ∈ l) :
    occursBefore a b (a :: l) = true := by
  simp [occursBefore, h]

/-- C9: at every update iteration `j` the learning rate is recomputed from
the update index with the configured decay type — linear decay from the
initial rate toward the floor 0, or exponential decay (rate 0.99) toward the
floor 3e-5 — and the `set_optimizer_lr` call applying it to the optimizer
precedes the `agent.update` call of the same iteration
(`train.py:182-189`, `train.py:303`). -/
theorem c9_lr_schedule (cfg : Config) (j mes : Nat) :
    occursBefore (Event.setLR (scheduledLR cfg j)) Event.agentUpdate
        (iterationTrace cfg j mes) = true ∧
    (cfg.lr_decay_type = "linear" →
        scheduledLR cfg j = linear_decay j (numUpdates cfg) cfg.lr 0) ∧
    (cfg.lr_decay_type = "exponential" →
        scheduledLR cfg j = exponential_decay j (99 / 100) cfg.lr (3 / 100000)) := by
  refine ⟨?_, fun h => by simp [scheduledLR, h], fun h => by simp [scheduledLR, h]⟩
  exact occursBefore_head (by simp [iterationTail])

theorem paramTrace_of_not_mem {Θ : Type} (upd : Θ → Θ) (θ : Θ) {l : List Event}
    (h : Event.agentUpdate ∉ l) :
    paramTrace upd θ l = l.map (fun e => (e, θ)) := by
  induction l with
  | nil => rfl
  | cons x xs ih =>
      have hx : x ≠ Event.agentUpdate := fun hx => h (by rw [hx]; exact List.mem_cons_self _ _)
      have hnx : Event.agentUpdate ∉ xs := fun hm => h (List.mem_cons_of_mem x hm)
      simp [paramTrace, hx, ih hnx]

theorem paramFinal_of_not_mem {Θ : Type} (upd : Θ → Θ) (θ : Θ) {l : List Event}
    (h : Event.agentUpdate ∉ l) :
    paramFinal upd θ l = θ := by
  induction l with
  | nil => rfl
  | cons x xs ih =>
      have hx : x ≠ Event.agentUpdate := fun hx => h (by rw [hx]; exact List.mem_cons_self _ _)
      have hnx : Event.agentUpdate ∉ xs := fun hm => h (List.mem_cons_of_mem x hm)
      simp [paramFinal, hx, ih hnx]

theorem paramTrace_append {Θ : Type} (upd : Θ → Θ) (θ : Θ) (l₁ l₂ : List Event) :
    paramTrace upd θ (l₁ ++ l₂)
      = paramTrace upd θ l₁ ++ paramTrace upd (paramFinal upd θ l₁) l₂ := by
  induction l₁ generalizing θ with
  | nil => rfl
  | cons x xs ih => simp [paramTrace, paramFinal, ih]

theorem paramFinal_append {Θ : Type} (upd : Θ → Θ) (θ : Θ) (l₁ l₂ : List Event) :
    paramFinal upd θ (l₁ ++ l₂) = paramFinal upd (paramFinal upd θ l₁) l₂ := by
  induction l₁ generalizing θ with
  | nil => rfl
  | cons x xs ih => simp [paramFinal, ih]

/-- C6: threading the live policy/value parameters through one update
iteration, every event that reads the policy without the optimizer — the
collection steps, the evaluation steps, and the bootstrap `get_value` call —
sees exactly the parameter value the iteration started with, and the
parameter value after the iteration is the result of the single
`agent.update` call applied to that starting value: the parameters are
mutated only by the PPO optimizer during OPTIMIZE. -/
theorem c6_policy_params_read_only {Θ : Type} (upd : Θ → Θ) (θ₀ : Θ)
    (cfg : Config) (j mes : Nat) (e : Event) (θe : Θ)
    (h : (e, θe) ∈ paramTrace upd θ₀ (iterationTrace cfg j mes))
    (hr : readsPolicy e = true) :
    θe = θ₀ ∧ paramFinal upd θ₀ (iterationTrace cfg j mes) = upd θ₀ := by
  have hpre := agentUpdate_not_mem_head cfg j mes
  have hpost : Event.agentUpdate ∉
      ([Event.afterUpdate, Event.specialistForkCheck, Event.saveModel,
        Event.bestSnapshotCheck, Event.logEpoch] : List Event) := by simp
  rw [iterationTrace_split cfg j mes] at h ⊢
  rw [paramTrace_append, paramTrace_of_not_mem upd θ₀ hpre,
    paramFinal_of_not_mem upd θ₀ hpre] at h
  constructor
  · rcases List.mem_append.mp h with hm | hm
    · rcases List.mem_map.mp hm with ⟨x, _, hx⟩
      exact (congrArg Prod.snd hx).symm
    · rw [show paramTrace upd θ₀ (Event.agentUpdate ::
          [Event.afterUpdate, Event.specialistForkCheck, Event.saveModel,
           Event.bestSnapshotCheck, Event.logEpoch])
          = (Event.agentUpdate, θ₀) :: paramTrace upd (upd θ₀)
              [Event.afterUpdate, Event.specialistForkCheck, Event.saveModel,
               Event.bestSnapshotCheck, Event.logEpoch] from by simp [paramTrace],
        paramTrace_of_not_mem upd (upd θ₀) hpost] at hm
      rcases List.mem_cons.mp hm with hm | hm
      · have he : e = Event.agentUpdate := congrArg Prod.fst hm
        rw [he] at hr
        cases hr
      · rcases List.mem_map.mp hm with ⟨x, hx, hxe⟩
        have he : e = x := (congrArg Prod.fst hxe).symm
        rw [he] at hr
        fin_cases hx <;> cases hr
  · rw [paramFinal_append, paramFinal_of_not_mem upd θ₀ hpre]
    rw [show paramFinal upd θ₀ (Event.agentUpdate ::
        [Event.afterUpdate, Event.specialistForkCheck, Event.saveModel,
         Event.bestSnapshotCheck, Event.logEpoch])
        = paramFinal upd (upd θ₀)
            [Event.afterUpdate, Event.specialistForkCheck, Event.saveModel,
             Event.bestSnapshotCheck, Event.logEpoch] from by simp [paramFinal]]
    exact paramFinal_of_not_mem upd (upd θ₀) hpost

/-- C6 witness: with parameter type Nat, update function successor and
starting value 0, the first collection step of a one-step iteration sees
parameter 0 and the iteration ends with parameter 1. -/
theorem c6_policy_params_read_only_witness :
    (Event.collectStep 0, (0 : Nat)) ∈
        paramTrace Nat.succ 0 (iterationTrace { num_steps := 1 } 0 1) ∧
    readsPolicy (Event.collectStep 0) = true ∧
    (0 : Nat) = 0 ∧
    paramFinal Nat.succ 0 (iterationTrace { num_steps := 1 } 0 1) = Nat.succ 0 := by
  refine ⟨by decide, rfl, ?_, ?_⟩
  · exact (c6_policy_params_read_only Nat.succ 0 { num_steps := 1 } 0 1
      (Event.collectStep 0) 0 (by decide) rfl).1
  · exact (c6_policy_params_read_only Nat.succ 0 { num_steps := 1 } 0 1
      (Event.collectStep 0) 0 (by decide) rfl).2

/-- C8: the curriculum level and the specialist index start at 0, every
iteration changes each by 0 or 1, the increment-by-one happens exactly when
the counter's reward-threshold condition holds (median of recent rewards
above 900 with curriculum enabled; mean above 1000 with specialist enabled),
and over any sequence of iterations both counters are monotonically
non-decreasing — they never decrease or reset. -/
theorem c8_counters_monotone (cfg : Config) :
    adaptInit.curriculum = 0 ∧ adaptInit.specialist = 0 ∧
    (∀ (rewards : List Rat) (s : AdaptState),
        s.curriculum ≤ (adaptStep cfg rewards s).curriculum ∧
        (adaptStep cfg rewards s).curriculum ≤ s.curriculum + 1 ∧
        ((adaptStep cfg rewards s).curriculum = s.curriculum + 1 ↔
            (cfg.use_curriculum && optGT (npMedian rewards) 900) = true) ∧
        s.specialist ≤ (adaptStep cfg rewards s).specialist ∧
        (adaptStep cfg rewards s).specialist ≤ s.specialist + 1 ∧
        ((adaptStep cfg rewards s).specialist = s.specialist + 1 ↔
            (cfg.use_specialist && optGT (npMean rewards) 1000) = true)) ∧
    (∀ (seq : List (List Rat)) (s : AdaptState),
        s.curriculum ≤ (adaptRun cfg seq s).curriculum ∧
        s.specialist ≤ (adaptRun cfg seq s).specialist) := by
  have hstep : ∀ (rewards : List Rat) (s : AdaptState),
      s.curriculum ≤ (adaptStep cfg rewards s).curriculum ∧
      (adaptStep cfg rewards s).curriculum ≤ s.curriculum + 1 ∧
      ((adaptStep cfg rewards s).curriculum = s.curriculum + 1 ↔
          (cfg.use_curriculum && optGT (npMedian rewards) 900) = true) ∧
      s.specialist ≤ (adaptStep cfg rewards s).specialist ∧
      (adaptStep cfg rewards s).specialist ≤ s.specialist + 1 ∧
      ((adaptStep cfg rewards s).specialist = s.specialist + 1 ↔
          (cfg.use_specialist && optGT (npMean rewards) 1000) = true) := by
    intro rewards s
    by_cases hc : (cfg.use_curriculum && optGT (npMedian rewards) 900) = true <;>
      by_cases hs : (cfg.use_specialist && optGT (npMean rewards) 1000) = true <;>
        simp [adaptStep, curriculumUpdate, specialistUpdate, hc, hs]
  refine ⟨rfl, rfl, hstep, ?_⟩
  intro seq
  induction seq with
  | nil => intro s; exact ⟨Nat.le_refl _, Nat.le_refl _⟩
  | cons r rs ih =>
      intro s
      have h1 := hstep r s
      have h2 := ih (adaptStep cfg r s)
      exact ⟨Nat.le_trans h1.1 h2.1, Nat.le_trans h1.2.2.2.1 h2.2⟩

/-- C10: with `plot_prob` and `use_threshold_sampling` both enabled, the
first collection step of the first rollout raises a NameError: the
threshold-sampling plotting branch (`train.py:239`) references `ax`, but the
plotting setup (`train.py:114-119`) binds only `fig`, `ax1` and `ax2`; the
error aborts the COLLECT phase, so this flag combination never completes a
single update. -/
theorem c10_threshold_plot_name_error (cfg : Config)
    (h1 : cfg.plot_prob = true) (h2 : cfg.use_threshold_sampling = true)
    (h3 : 0 < cfg.num_steps) :
    collectStepRun cfg 0 = Except.error "NameError: name ax is not defined" ∧
    runCollect cfg = Except.error "NameError: name ax is not defined" := by
  have hstep : collectStepRun cfg 0 = Except.error "NameError: name ax is not defined" := by
    simp [collectStepRun, h1, h2, plotNames, useName]
    rfl
  refine ⟨hstep, ?_⟩
  obtain ⟨k, hk⟩ : ∃ k, cfg.num_steps = k + 1 :=
    ⟨cfg.num_steps - 1, (Nat.succ_pred_eq_of_pos h3).symm⟩
  rw [runCollect, hk, runStepsFrom, hstep]
  rfl

/-- C10 witness: the failure at the concrete flag combination, with the
default two-step horizon shortened to 2. -/
theorem c10_threshold_plot_name_error_witness :
    ({ plot_prob := true, use_threshold_sampling := true, num_steps := 2 } : Config).plot_prob
      = true ∧
    runCollect { plot_prob := true, use_threshold_sampling := true, num_steps := 2 }
      = Except.error "NameError: name ax is not defined" :=
  ⟨rfl,
   (c10_threshold_plot_name_error
      { plot_prob := true, use_threshold_sampling := true, num_steps := 2 }
      rfl rfl (by decide)).2⟩

end SteppingStone
